import Mathlib

/-!
Shallow embedding of the batch processing engine of the Soundscapy
repository (`src/soundscapy/audio/processing_engine.py`), together with
models of its external collaborators (result containers, state manager,
progress tracker, signal loader, metric registry) as described at their
interface boundary by the specification.

Python exceptions are modelled with `Except String`; functions that the
source code makes total by a catch-all handler are total Lean functions.
-/

deriving instance DecidableEq for Except

/-- One channel's raw audio data, opaque to the engine. -/
abbrev Signal := Nat

/-- Modelled from the spec: `soundscapy.audio.binaural_signal.BinauralSignal`
(not under src/). The Signal Loader collaborator produces an object exposing
a channel count and per-index channel access, plus the originating path. -/
structure BinauralSignal where
  file_path : String
  channel_data : List Signal
deriving DecidableEq

namespace BinauralSignal

/-- `audio_data.channels` in the source. -/
def channels (b : BinauralSignal) : Nat := b.channel_data.length

/-- `audio_data[i]` in the source (per-index channel access). -/
def chan (b : BinauralSignal) (i : Nat) : Signal := b.channel_data.getD i 0

/-- `audio_data.left`. -/
def left (b : BinauralSignal) : Signal := b.chan 0

/-- `audio_data.right`. -/
def right (b : BinauralSignal) : Signal := b.chan 1

end BinauralSignal

/-- The opaque value a metric's `calculate` returns; the source mutates its
`channel` attribute in `_process_channel` (`result.channel = channel_name`). -/
structure CalcResult where
  value : Nat
  channel : String
deriving DecidableEq

/-- Configuration of one metric: a mapping of options; the engine reads only
`metric_config.get("enabled", True)`. -/
structure MetricConfig where
  enabled : Bool := true
deriving DecidableEq

/-- Modelled from the spec: the Metric collaborator interface
(`soundscapy.audio.metric_registry.Metric`, not under src/): `configure`
may raise for an unsupported configuration, `calculate` may raise. -/
structure Metric where
  configure : MetricConfig → Except String Unit
  calculate : Signal → Except String CalcResult

/-- Modelled from the spec: `MultiChannelResult`
(`soundscapy.audio.result_storage`, not under src/): a mapping from channel
identifier to channel result, insertion order preserved. -/
structure MultiChannelResult where
  channel_results : List (String × CalcResult) := []
deriving DecidableEq

namespace MultiChannelResult

def add_channel_result (m : MultiChannelResult) (name : String) (r : CalcResult) :
    MultiChannelResult :=
  { channel_results := m.channel_results ++ [(name, r)] }

/-- The channel identifiers present, in insertion order. -/
def keys (m : MultiChannelResult) : List String := m.channel_results.map Prod.fst

end MultiChannelResult

/-- Modelled from the spec: `FileAnalysisResults`
(`soundscapy.audio.result_storage`, not under src/): source file identifier,
metric-name-keyed results, and an ordered error list. -/
structure FileAnalysisResults where
  file_path : String
  metric_results : List (String × MultiChannelResult) := []
  errors : List String := []
deriving DecidableEq

namespace FileAnalysisResults

def add_metric_result (f : FileAnalysisResults) (name : String)
    (m : MultiChannelResult) : FileAnalysisResults :=
  { f with metric_results := f.metric_results ++ [(name, m)] }

def add_error (f : FileAnalysisResults) (e : String) : FileAnalysisResults :=
  { f with errors := f.errors ++ [e] }

end FileAnalysisResults

/-- `FileAnalysisResults(file_path)`: a fresh, empty per-file result. -/
def emptyFileResults (fp : String) : FileAnalysisResults :=
  { file_path := fp }

/-- A per-file result carrying only one error (`error_result.add_error(...)`). -/
def errorOnlyResults (fp e : String) : FileAnalysisResults :=
  { file_path := fp, errors := [e] }

/-- Modelled from the spec: `DirectoryAnalysisResults`
(`soundscapy.audio.result_storage`, not under src/): a mapping from file
identifier to `FileAnalysisResults`; re-adding an existing key overwrites. -/
structure DirectoryAnalysisResults where
  directory_path : String
  file_results : List (String × FileAnalysisResults) := []
deriving DecidableEq

/-- Keyed overwrite-or-append, the semantics of the Python dict assignment
`self.file_results[file_path] = result` on a unique-key entry list. -/
def upsertEntry : List (String × FileAnalysisResults) → String →
    FileAnalysisResults → List (String × FileAnalysisResults)
  | [], fp, r => [(fp, r)]
  | p :: rest, fp, r =>
      if p.1 = fp then (fp, r) :: rest else p :: upsertEntry rest fp r

namespace DirectoryAnalysisResults

def add_file_result (d : DirectoryAnalysisResults) (fp : String)
    (r : FileAnalysisResults) : DirectoryAnalysisResults :=
  { d with file_results := upsertEntry d.file_results fp r }

def lookup (d : DirectoryAnalysisResults) (fp : String) :
    Option FileAnalysisResults :=
  (d.file_results.find? (fun p => p.1 = fp)).map Prod.snd

def keys (d : DirectoryAnalysisResults) : List String :=
  d.file_results.map Prod.fst

end DirectoryAnalysisResults

/-- Modelled from the spec: `soundscapy.audio.state_manager.StateManager`
(not under src/): a durable, append-only set of completed file identifiers
with `is_processed` and `mark_processed`, either of which may fail with an
I/O error; the fault lists model which paths each operation fails on. -/
structure StateManager where
  processed : List String
  is_processed_fail : List String := []
  mark_processed_fail : List String := []
deriving DecidableEq

namespace StateManager

def is_processed (sm : StateManager) (fp : String) : Except String Bool :=
  if fp ∈ sm.is_processed_fail then
    Except.error ("state store read error: " ++ fp)
  else
    Except.ok (fp ∈ sm.processed)

def mark_processed (sm : StateManager) (fp : String) :
    Except String StateManager :=
  if fp ∈ sm.mark_processed_fail then
    Except.error ("state store write error: " ++ fp)
  else
    Except.ok { sm with processed :=
      if fp ∈ sm.processed then sm.processed else sm.processed ++ [fp] }

end StateManager

/-- Modelled from the spec: `soundscapy.audio.progress_tracking.ProgressTracker`
(not under src/): a total, a label, and a completed count starting at 0,
advanced by one per `update()`. -/
structure ProgressTracker where
  total : Nat
  label : String
  count : Nat := 0
deriving DecidableEq

namespace ProgressTracker

def update (pt : ProgressTracker) : ProgressTracker :=
  { pt with count := pt.count + 1 }

end ProgressTracker

/-- The external collaborators the engine calls out to: the metric registry
(`metric_registry.get_metric`), the signal loader (`BinauralSignal.from_wav`)
and the filesystem (`os.listdir`). -/
structure Env where
  get_metric : String → Except String Metric
  from_wav : String → Except String BinauralSignal
  listdir : String → List String

/-- The configuration dictionary handed to `PsychoacousticProcessor.__init__`:
the engine reads `metrics` (name-keyed, iterated in configuration order) and
`force_reprocess`; the remaining keys are read but unused by the core. -/
structure ProcessorConfig where
  metrics : List (String × MetricConfig) := []
  force_reprocess : Bool := false
  segment_length : Option Nat := none
  overlap : Nat := 0
  result_detail : String := "all"

namespace PsychoacousticProcessor

/-- `PsychoacousticProcessor.segment_signal`: placeholder that returns the
entire signal as a single segment. -/
def segment_signal (audio_data : Signal) : List Signal := [audio_data]

/-- `PsychoacousticProcessor.analyze_segment`: placeholder that calls the
metric's `calculate` on the entire segment. -/
def analyze_segment (metric : Metric) (segment : Signal) :
    Except String CalcResult :=
  metric.calculate segment

/-- `PsychoacousticProcessor._process_channel`: segment the channel, analyze
each segment, return the first segment's result tagged with the channel name
(`results[0]` raising IndexError if there were no segments). -/
def processChannel (metric : Metric) (channel_data : Signal)
    (channel_name : String) : Except String CalcResult := do
  let segments := segment_signal channel_data
  let results ← segments.mapM (fun seg => analyze_segment metric seg)
  match results with
  | [] => Except.error "IndexError: list index out of range"
  | r :: _ => Except.ok { r with channel := channel_name }

/-- The sequential per-channel loop of `process`
(`for i in range(audio_data.channels)`), processing `n` channels starting at
index `i`, each labeled `channel_{index+1}`. -/
def seqChannels (metric : Metric) (audio_data : BinauralSignal) :
    Nat → Nat → MultiChannelResult → Except String MultiChannelResult
  | _, 0, acc => Except.ok acc
  | i, n + 1, acc => do
      let channel_name := "channel_" ++ toString (i + 1)
      let channel_result ← processChannel metric (audio_data.chan i) channel_name
      seqChannels metric audio_data (i + 1) n
        (acc.add_channel_result channel_name channel_result)

/-- The per-metric channel fan-out of `process`: the two-channel parallel
path computes left then right on a size-2 pool (the futures' results are
collected in that order, so the first exception surfaces in that order);
otherwise channels run sequentially in index order. -/
def computeChannels (metric : Metric) (audio_data : BinauralSignal)
    (parallel : Bool) : Except String MultiChannelResult :=
  if parallel && audio_data.channels == 2 then do
    let left_result ← processChannel metric audio_data.left "left"
    let right_result ← processChannel metric audio_data.right "right"
    Except.ok ((MultiChannelResult.mk []).add_channel_result "left" left_result
      |>.add_channel_result "right" right_result)
  else
    seqChannels metric audio_data 0 audio_data.channels (MultiChannelResult.mk [])

/-- One iteration of the metric loop in `process`: resolve the metric from
the registry, configure it, and compute all channels; any step may raise. -/
def runMetric (env : Env) (audio_data : BinauralSignal) (parallel : Bool)
    (m : String × MetricConfig) : Except String MultiChannelResult := do
  let metric ← env.get_metric m.1
  let _ ← metric.configure m.2
  computeChannels metric audio_data parallel

/-- The metric loop of `process` under its catch-all handler: the first
exception aborts the remaining metrics and the partially-populated results
accumulated so far are returned as-is (the handler only logs — it does not
append to the error list). -/
def processMetrics (env : Env) (audio_data : BinauralSignal) (parallel : Bool) :
    List (String × MetricConfig) → FileAnalysisResults → FileAnalysisResults
  | [], acc => acc
  | m :: rest, acc =>
    if m.2.enabled then
      match runMetric env audio_data parallel m with
      | Except.ok mcr =>
          processMetrics env audio_data parallel rest
            (acc.add_metric_result m.1 mcr)
      | Except.error _ => acc
    else
      processMetrics env audio_data parallel rest acc

/-- `PsychoacousticProcessor.process`: iterate the enabled metrics in
configuration order, recording a `MultiChannelResult` per metric; on any
exception return the results accumulated so far without raising. -/
def process (cfg : ProcessorConfig) (env : Env) (audio_data : BinauralSignal)
    (parallel : Bool) : FileAnalysisResults :=
  processMetrics env audio_data parallel cfg.metrics
    (emptyFileResults audio_data.file_path)

/-- The channel labels the per-metric fan-out of `process` uses: `left` and
`right` on the two-channel parallel path, `channel_1..channel_k` otherwise. -/
def expectedChannelKeys (audio_data : BinauralSignal) (parallel : Bool) :
    List String :=
  if parallel && audio_data.channels == 2 then ["left", "right"]
  else (List.range audio_data.channels).map
    (fun i => "channel_" ++ toString (i + 1))

end PsychoacousticProcessor

namespace ProcessingEngine

open PsychoacousticProcessor

/-- The body of `_process_file`'s try/except: load the file and process it,
or absorb the load failure into an error-only result. (`process` itself
never raises, so only `BinauralSignal.from_wav` can trigger the handler.) -/
def unitWork (env : Env) (cfg : ProcessorConfig) (fp : String)
    (parallel_channels : Bool) : FileAnalysisResults :=
  match env.from_wav fp with
  | Except.ok audio_data => process cfg env audio_data parallel_channels
  | Except.error e => errorOnlyResults fp e

/-- `ProcessingEngine._process_file`: skip (returning an empty result) when
the state manager reports the file processed and reprocessing is not forced;
a `state_manager.is_processed` exception propagates (it is outside the try). -/
def processFile (env : Env) (cfg : ProcessorConfig) (sm : StateManager)
    (fp : String) (parallel_channels : Bool) :
    Except String FileAnalysisResults := do
  let already ← sm.is_processed fp
  if already && !cfg.force_reprocess then
    Except.ok (emptyFileResults fp)
  else
    Except.ok (unitWork env cfg fp parallel_channels)

/-- One completion-handling step of `process_directory`'s `as_completed`
loop: record the future's result and mark the file processed, or absorb any
exception (from `is_processed` via `future.result()`, or from
`mark_processed`) into an error-only entry for the file. -/
def stepFile (env : Env) (cfg : ProcessorConfig) (sm : StateManager)
    (acc : DirectoryAnalysisResults) (fp : String) :
    DirectoryAnalysisResults × StateManager :=
  match processFile env cfg sm fp false with
  | Except.error e => (acc.add_file_result fp (errorOnlyResults fp e), sm)
  | Except.ok result =>
      let acc1 := acc.add_file_result fp result
      match sm.mark_processed fp with
      | Except.ok sm2 => (acc1, sm2)
      | Except.error e => (acc1.add_file_result fp (errorOnlyResults fp e), sm)

/-- The `as_completed` collection loop of `process_directory`, linearized in
submission order (each file's entry and mark depend only on its own path, so
any completion order yields the same per-file outcome); the progress tracker
is updated once per file in the `finally` block. -/
def processFiles (env : Env) (cfg : ProcessorConfig) :
    List String → StateManager → DirectoryAnalysisResults → ProgressTracker →
    DirectoryAnalysisResults × StateManager × ProgressTracker
  | [], sm, acc, pt => (acc, sm, pt)
  | fp :: rest, sm, acc, pt =>
      let s := stepFile env cfg sm acc fp
      processFiles env cfg rest s.2 s.1 pt.update

/-- `f.endswith(".wav")`: suffix test on the character sequence. -/
def endsWithWav (f : String) : Bool := ".wav".data.isSuffixOf f.data

/-- The eligible files of `process_directory`: directory entries ending in
`.wav`, joined to the directory path. -/
def eligiblePaths (env : Env) (directory_path : String) : List String :=
  ((env.listdir directory_path).filter (fun f => endsWithWav f)).map
    (fun f => directory_path ++ "/" ++ f)

/-- `ProcessingEngine.process_directory`: enumerate eligible files, set up a
progress tracker over their count, dispatch every file (with
`parallel_channels` hard-coded to `False`), and collect results, the final
state manager and the progress tracker. -/
def process_directory (env : Env) (cfg : ProcessorConfig)
    (directory_path : String) (sm : StateManager) :
    DirectoryAnalysisResults × StateManager × ProgressTracker :=
  let file_paths := eligiblePaths env directory_path
  let progress_tracker : ProgressTracker :=
    { total := file_paths.length, label := "Processing files" }
  processFiles env cfg file_paths sm
    (DirectoryAnalysisResults.mk directory_path []) progress_tracker

/-- The entry that the completion handler records for a file, as a function
of the file's status in the state store consulted at dispatch time. -/
def entryOutcome (env : Env) (cfg : ProcessorConfig) (sm : StateManager)
    (fp : String) : FileAnalysisResults :=
  if fp ∈ sm.is_processed_fail then
    errorOnlyResults fp ("state store read error: " ++ fp)
  else if fp ∈ sm.mark_processed_fail then
    errorOnlyResults fp ("state store write error: " ++ fp)
  else if fp ∈ sm.processed ∧ cfg.force_reprocess = false then
    emptyFileResults fp
  else
    unitWork env cfg fp false

end ProcessingEngine

/-! ### Concrete fixtures used by witnesses and counterexamples -/

/-- A metric whose computation always succeeds, mapping a channel's signal
value `s` to `s + 100`. -/
def okMetricA : Metric :=
  { configure := fun _ => Except.ok ()
    calculate := fun s => Except.ok { value := s + 100, channel := "" } }

/-- A metric whose computation raises on every channel. -/
def badCalcMetric : Metric :=
  { configure := fun _ => Except.ok ()
    calculate := fun _ => Except.error "calc boom" }

/-- A two-channel test signal. -/
def audioA : BinauralSignal :=
  { file_path := "d/a.wav", channel_data := [5, 7] }

/-- A test environment: the registry knows `m1` (always succeeds) and `mx`
(calculation always raises); only `d/a.wav` loads; the directory holds two
wav files and one non-wav file. -/
def envX : Env :=
  { get_metric := fun n =>
      if n = "m1" then Except.ok okMetricA
      else if n = "mx" then Except.ok badCalcMetric
      else Except.error ("unknown metric: " ++ n)
    from_wav := fun fp =>
      if fp = "d/a.wav" then Except.ok audioA
      else Except.error ("load failure: " ++ fp)
    listdir := fun _ => ["a.wav", "b.wav", "notes.txt"] }

def cfgX : ProcessorConfig := { metrics := [("m1", {})] }

/-- Metric list with an unknown metric configured after a succeeding one. -/
def cfgM1Unknown : ProcessorConfig := { metrics := [("m1", {}), ("zz", {})] }

/-- Metric list with a calculation-raising metric before a succeeding one. -/
def cfgMxFirst : ProcessorConfig := { metrics := [("mx", {}), ("m1", {})] }

def smEmpty : StateManager := { processed := [] }

def smDoneA : StateManager := { processed := ["d/a.wav"] }

def smReadFailA : StateManager :=
  { processed := [], is_processed_fail := ["d/a.wav"] }


/-! ### Lemmas about the result containers -/

theorem find?_upsertEntry_same (l : List (String × FileAnalysisResults))
    (fp : String) (r : FileAnalysisResults) :
    (upsertEntry l fp r).find? (fun p => p.1 = fp) = some (fp, r) := by
  induction l with
  | nil => simp [upsertEntry]
  | cons p rest ih =>
      by_cases h : p.1 = fp
      · simp [upsertEntry, h]
      · simp [upsertEntry, h, ih]

theorem find?_upsertEntry_other (l : List (String × FileAnalysisResults))
    (fp fp' : String) (r : FileAnalysisResults) (h : fp' ≠ fp) :
    (upsertEntry l fp r).find? (fun p => p.1 = fp') =
      l.find? (fun p => p.1 = fp') := by
  have h2 : ¬ fp = fp' := Ne.symm h
  induction l with
  | nil => simp [upsertEntry, h2]
  | cons p rest ih =>
      by_cases hp : p.1 = fp
      · have hp' : ¬ p.1 = fp' := by rw [hp]; exact h2
        simp [upsertEntry, hp, hp', h2]
      · by_cases hq : p.1 = fp'
        · simp [upsertEntry, hp, hq, h, h2]
        · simp [upsertEntry, hp, hq, ih]

theorem mem_upsertEntry (l : List (String × FileAnalysisResults))
    (fp : String) (r : FileAnalysisResults) (x : String × FileAnalysisResults)
    (hx : x ∈ upsertEntry l fp r) : x = (fp, r) ∨ x ∈ l := by
  induction l with
  | nil => simpa [upsertEntry] using hx
  | cons p rest ih =>
      by_cases hp : p.1 = fp
      · simp [upsertEntry, hp] at hx
        rcases hx with h | h
        · exact Or.inl h
        · exact Or.inr (List.mem_cons_of_mem _ h)
      · simp [upsertEntry, hp] at hx
        rcases hx with h | h
        · exact Or.inr (by simp [h])
        · rcases ih h with h' | h'
          · exact Or.inl h'
          · exact Or.inr (List.mem_cons_of_mem _ h')

theorem keys_upsertEntry_not_mem (l : List (String × FileAnalysisResults))
    (fp : String) (r : FileAnalysisResults) (h : fp ∉ l.map Prod.fst) :
    (upsertEntry l fp r).map Prod.fst = l.map Prod.fst ++ [fp] := by
  induction l with
  | nil => simp [upsertEntry]
  | cons p rest ih =>
      simp only [List.map_cons, List.mem_cons] at h
      push_neg at h
      have hp : ¬ p.1 = fp := fun hc => h.1 hc.symm
      simp [upsertEntry, hp, ih h.2]

theorem keys_upsertEntry_mem (l : List (String × FileAnalysisResults))
    (fp : String) (r : FileAnalysisResults) (h : fp ∈ l.map Prod.fst) :
    (upsertEntry l fp r).map Prod.fst = l.map Prod.fst := by
  induction l with
  | nil => simp at h
  | cons p rest ih =>
      by_cases hp : p.1 = fp
      · simp [upsertEntry, hp]
      · simp only [List.map_cons, List.mem_cons] at h
        rcases h with h | h
        · exact absurd h.symm hp
        · simp [upsertEntry, hp, ih h]

theorem lookup_add_file_result_same (d : DirectoryAnalysisResults)
    (fp : String) (r : FileAnalysisResults) :
    (d.add_file_result fp r).lookup fp = some r := by
  simp [DirectoryAnalysisResults.add_file_result, DirectoryAnalysisResults.lookup,
    find?_upsertEntry_same]

theorem lookup_add_file_result_other (d : DirectoryAnalysisResults)
    (fp fp' : String) (r : FileAnalysisResults) (h : fp' ≠ fp) :
    (d.add_file_result fp r).lookup fp' = d.lookup fp' := by
  simp [DirectoryAnalysisResults.add_file_result, DirectoryAnalysisResults.lookup,
    find?_upsertEntry_other _ _ _ _ h]

/-! ### Characterization of one completion-handling step -/

theorem exceptOkBind {α β : Type} (a : α) (f : α → Except String β) :
    (Except.ok a >>= f) = f a := rfl

theorem exceptErrorBind {α β : Type} (e : String) (f : α → Except String β) :
    ((Except.error e : Except String α) >>= f) = Except.error e := rfl

namespace ProcessingEngine

theorem processFile_eq (env : Env) (cfg : ProcessorConfig) (sm : StateManager)
    (fp : String) (par : Bool) :
    processFile env cfg sm fp par =
      if fp ∈ sm.is_processed_fail then
        Except.error ("state store read error: " ++ fp)
      else if fp ∈ sm.processed ∧ cfg.force_reprocess = false then
        Except.ok (emptyFileResults fp)
      else
        Except.ok (unitWork env cfg fp par) := by
  by_cases h1 : fp ∈ sm.is_processed_fail
  · simp [processFile, StateManager.is_processed, h1, exceptOkBind, exceptErrorBind]
  · by_cases h2 : fp ∈ sm.processed
    · by_cases h3 : cfg.force_reprocess = false
      · simp [processFile, StateManager.is_processed, h1, h2, h3, exceptOkBind,
          exceptErrorBind]
      · simp only [Bool.not_eq_false] at h3
        simp [processFile, StateManager.is_processed, h1, h2, h3, exceptOkBind,
          exceptErrorBind]
    · simp [processFile, StateManager.is_processed, h1, h2, exceptOkBind,
        exceptErrorBind]

theorem stepFile_lookup_same (env : Env) (cfg : ProcessorConfig)
    (sm : StateManager) (acc : DirectoryAnalysisResults) (fp : String) :
    (stepFile env cfg sm acc fp).1.lookup fp =
      some (entryOutcome env cfg sm fp) := by
  by_cases h1 : fp ∈ sm.is_processed_fail
  · simp [stepFile, processFile_eq, entryOutcome, h1, lookup_add_file_result_same]
  · by_cases h2 : fp ∈ sm.mark_processed_fail
    · by_cases h3 : fp ∈ sm.processed ∧ cfg.force_reprocess = false
      · simp [stepFile, processFile_eq, entryOutcome, StateManager.mark_processed,
          h1, h2, h3, lookup_add_file_result_same]
      · simp [stepFile, processFile_eq, entryOutcome, StateManager.mark_processed,
          h1, h2, h3, lookup_add_file_result_same]
    · by_cases h3 : fp ∈ sm.processed ∧ cfg.force_reprocess = false
      · simp [stepFile, processFile_eq, entryOutcome, StateManager.mark_processed,
          h1, h2, h3, lookup_add_file_result_same]
      · simp [stepFile, processFile_eq, entryOutcome, StateManager.mark_processed,
          h1, h2, h3, lookup_add_file_result_same]

theorem stepFile_lookup_other (env : Env) (cfg : ProcessorConfig)
    (sm : StateManager) (acc : DirectoryAnalysisResults) (fp fp' : String)
    (h : fp' ≠ fp) :
    (stepFile env cfg sm acc fp).1.lookup fp' = acc.lookup fp' := by
  by_cases h1 : fp ∈ sm.is_processed_fail
  · simp [stepFile, processFile_eq, h1, lookup_add_file_result_other _ _ _ _ h]
  · by_cases h2 : fp ∈ sm.mark_processed_fail
    · by_cases h3 : fp ∈ sm.processed ∧ cfg.force_reprocess = false
      · simp [stepFile, processFile_eq, StateManager.mark_processed, h1, h2, h3,
          lookup_add_file_result_other _ _ _ _ h]
      · simp [stepFile, processFile_eq, StateManager.mark_processed, h1, h2, h3,
          lookup_add_file_result_other _ _ _ _ h]
    · by_cases h3 : fp ∈ sm.processed ∧ cfg.force_reprocess = false
      · simp [stepFile, processFile_eq, StateManager.mark_processed, h1, h2, h3,
          lookup_add_file_result_other _ _ _ _ h]
      · simp [stepFile, processFile_eq, StateManager.mark_processed, h1, h2, h3,
          lookup_add_file_result_other _ _ _ _ h]

theorem stepFile_is_processed_fail (env : Env) (cfg : ProcessorConfig)
    (sm : StateManager) (acc : DirectoryAnalysisResults) (fp : String) :
    (stepFile env cfg sm acc fp).2.is_processed_fail = sm.is_processed_fail := by
  by_cases h1 : fp ∈ sm.is_processed_fail
  · simp [stepFile, processFile_eq, h1]
  · by_cases h2 : fp ∈ sm.mark_processed_fail
    · by_cases h3 : fp ∈ sm.processed ∧ cfg.force_reprocess = false
      · simp [stepFile, processFile_eq, StateManager.mark_processed, h1, h2, h3]
      · simp [stepFile, processFile_eq, StateManager.mark_processed, h1, h2, h3]
    · by_cases h3 : fp ∈ sm.processed ∧ cfg.force_reprocess = false
      · simp [stepFile, processFile_eq, StateManager.mark_processed, h1, h2, h3]
      · simp [stepFile, processFile_eq, StateManager.mark_processed, h1, h2, h3]

theorem stepFile_mark_processed_fail (env : Env) (cfg : ProcessorConfig)
    (sm : StateManager) (acc : DirectoryAnalysisResults) (fp : String) :
    (stepFile env cfg sm acc fp).2.mark_processed_fail =
      sm.mark_processed_fail := by
  by_cases h1 : fp ∈ sm.is_processed_fail
  · simp [stepFile, processFile_eq, h1]
  · by_cases h2 : fp ∈ sm.mark_processed_fail
    · by_cases h3 : fp ∈ sm.processed ∧ cfg.force_reprocess = false
      · simp [stepFile, processFile_eq, StateManager.mark_processed, h1, h2, h3]
      · simp [stepFile, processFile_eq, StateManager.mark_processed, h1, h2, h3]
    · by_cases h3 : fp ∈ sm.processed ∧ cfg.force_reprocess = false
      · simp [stepFile, processFile_eq, StateManager.mark_processed, h1, h2, h3]
      · simp [stepFile, processFile_eq, StateManager.mark_processed, h1, h2, h3]

theorem mem_stepFile_processed (env : Env) (cfg : ProcessorConfig)
    (sm : StateManager) (acc : DirectoryAnalysisResults) (fp x : String) :
    x ∈ (stepFile env cfg sm acc fp).2.processed ↔
      x ∈ sm.processed ∨
        (x = fp ∧ fp ∉ sm.is_processed_fail ∧ fp ∉ sm.mark_processed_fail) := by
  by_cases h1 : fp ∈ sm.is_processed_fail
  · simp [stepFile, processFile_eq, h1]
  · by_cases h2 : fp ∈ sm.mark_processed_fail
    · by_cases h3 : fp ∈ sm.processed ∧ cfg.force_reprocess = false
      · simp [stepFile, processFile_eq, StateManager.mark_processed, h1, h2, h3]
      · simp [stepFile, processFile_eq, StateManager.mark_processed, h1, h2, h3]
    · have hgoal : ∀ n : StateManager, n.processed =
          (if fp ∈ sm.processed then sm.processed else sm.processed ++ [fp]) →
          (x ∈ n.processed ↔ x ∈ sm.processed ∨
            (x = fp ∧ fp ∉ sm.is_processed_fail ∧ fp ∉ sm.mark_processed_fail)) := by
        intro n hn
        rw [hn]
        by_cases h4 : fp ∈ sm.processed
        · simp only [h4, if_pos]
          constructor
          · exact fun hx => Or.inl hx
          · rintro (hx | ⟨hx, -, -⟩)
            · exact hx
            · exact hx ▸ h4
        · simp only [h4, if_neg, not_false_iff, List.mem_append, List.mem_singleton]
          constructor
          · rintro (hx | hx)
            · exact Or.inl hx
            · exact Or.inr ⟨hx, h1, h2⟩
          · rintro (hx | ⟨hx, -, -⟩)
            · exact Or.inl hx
            · exact Or.inr hx
      by_cases h3 : fp ∈ sm.processed ∧ cfg.force_reprocess = false
      · exact hgoal _ (by simp [stepFile, processFile_eq, StateManager.mark_processed,
          h1, h2, h3])
      · exact hgoal _ (by simp [stepFile, processFile_eq, StateManager.mark_processed,
          h1, h2, h3])

theorem stepFile_keys (env : Env) (cfg : ProcessorConfig) (sm : StateManager)
    (acc : DirectoryAnalysisResults) (fp : String) (h : fp ∉ acc.keys) :
    (stepFile env cfg sm acc fp).1.keys = acc.keys ++ [fp] := by
  have hfresh : ∀ r, (acc.add_file_result fp r).keys = acc.keys ++ [fp] := by
    intro r
    simp [DirectoryAnalysisResults.add_file_result, DirectoryAnalysisResults.keys,
      keys_upsertEntry_not_mem _ _ _ h]
  have hover : ∀ r r', ((acc.add_file_result fp r).add_file_result fp r').keys =
      acc.keys ++ [fp] := by
    intro r r'
    have : fp ∈ (acc.add_file_result fp r).keys := by
      rw [hfresh]; simp
    simp only [DirectoryAnalysisResults.add_file_result,
      DirectoryAnalysisResults.keys] at this ⊢
    rw [keys_upsertEntry_mem _ _ _ this]
    exact hfresh r
  by_cases h1 : fp ∈ sm.is_processed_fail
  · simp [stepFile, processFile_eq, h1, hfresh]
  · by_cases h2 : fp ∈ sm.mark_processed_fail
    · by_cases h3 : fp ∈ sm.processed ∧ cfg.force_reprocess = false
      · simp [stepFile, processFile_eq, StateManager.mark_processed, h1, h2, h3, hover]
      · simp [stepFile, processFile_eq, StateManager.mark_processed, h1, h2, h3, hover]
    · by_cases h3 : fp ∈ sm.processed ∧ cfg.force_reprocess = false
      · simp [stepFile, processFile_eq, StateManager.mark_processed, h1, h2, h3, hfresh]
      · simp [stepFile, processFile_eq, StateManager.mark_processed, h1, h2, h3, hfresh]

end ProcessingEngine

/-! ### Lemmas about the collection loop -/

namespace ProcessingEngine

theorem processFiles_pt (env : Env) (cfg : ProcessorConfig) (l : List String) :
    ∀ sm acc pt, (processFiles env cfg l sm acc pt).2.2 =
      { pt with count := pt.count + l.length } := by
  induction l with
  | nil => intro sm acc pt; simp [processFiles]
  | cons a rest ih =>
      intro sm acc pt
      rw [processFiles, ih]
      cases pt
      simp [ProgressTracker.update]
      omega

theorem processFiles_is_fail_inv (env : Env) (cfg : ProcessorConfig)
    (l : List String) : ∀ sm acc pt,
    (processFiles env cfg l sm acc pt).2.1.is_processed_fail =
      sm.is_processed_fail := by
  induction l with
  | nil => intro sm acc pt; simp [processFiles]
  | cons a rest ih =>
      intro sm acc pt
      rw [processFiles, ih, stepFile_is_processed_fail]

theorem processFiles_mark_fail_inv (env : Env) (cfg : ProcessorConfig)
    (l : List String) : ∀ sm acc pt,
    (processFiles env cfg l sm acc pt).2.1.mark_processed_fail =
      sm.mark_processed_fail := by
  induction l with
  | nil => intro sm acc pt; simp [processFiles]
  | cons a rest ih =>
      intro sm acc pt
      rw [processFiles, ih, stepFile_mark_processed_fail]

theorem mem_processFiles_processed (env : Env) (cfg : ProcessorConfig)
    (l : List String) (x : String) : ∀ sm acc pt,
    x ∈ (processFiles env cfg l sm acc pt).2.1.processed ↔
      x ∈ sm.processed ∨
        (x ∈ l ∧ x ∉ sm.is_processed_fail ∧ x ∉ sm.mark_processed_fail) := by
  induction l with
  | nil => intro sm acc pt; simp [processFiles]
  | cons a rest ih =>
      intro sm acc pt
      rw [processFiles, ih, stepFile_is_processed_fail,
        stepFile_mark_processed_fail, mem_stepFile_processed]
      constructor
      · rintro ((hx | ⟨hx, ha1, ha2⟩) | ⟨hx, hx1, hx2⟩)
        · exact Or.inl hx
        · exact Or.inr ⟨by simp [hx], hx ▸ ha1, hx ▸ ha2⟩
        · exact Or.inr ⟨List.mem_cons_of_mem _ hx, hx1, hx2⟩
      · rintro (hx | ⟨hx, hx1, hx2⟩)
        · exact Or.inl (Or.inl hx)
        · rcases List.mem_cons.mp hx with hx | hx
          · exact Or.inl (Or.inr ⟨hx, hx ▸ hx1, hx ▸ hx2⟩)
          · exact Or.inr ⟨hx, hx1, hx2⟩

theorem processFiles_lookup_not_mem (env : Env) (cfg : ProcessorConfig)
    (l : List String) (fp : String) (h : fp ∉ l) : ∀ sm acc pt,
    (processFiles env cfg l sm acc pt).1.lookup fp = acc.lookup fp := by
  induction l with
  | nil => intro sm acc pt; simp [processFiles]
  | cons a rest ih =>
      intro sm acc pt
      have ha : fp ≠ a := fun hc => h (by simp [hc])
      have hr : fp ∉ rest := fun hc => h (List.mem_cons_of_mem _ hc)
      rw [processFiles, ih hr, stepFile_lookup_other _ _ _ _ _ _ ha]

theorem entryOutcome_congr (env : Env) (cfg : ProcessorConfig)
    (sm sm' : StateManager) (fp : String)
    (h1 : fp ∈ sm'.is_processed_fail ↔ fp ∈ sm.is_processed_fail)
    (h2 : fp ∈ sm'.mark_processed_fail ↔ fp ∈ sm.mark_processed_fail)
    (h3 : fp ∈ sm'.processed ↔ fp ∈ sm.processed) :
    entryOutcome env cfg sm' fp = entryOutcome env cfg sm fp := by
  simp only [entryOutcome, h1, h2, h3]

theorem processFiles_lookup_mem (env : Env) (cfg : ProcessorConfig)
    (l : List String) (fp : String) (hnd : l.Nodup) (hmem : fp ∈ l) :
    ∀ sm acc pt, (processFiles env cfg l sm acc pt).1.lookup fp =
      some (entryOutcome env cfg sm fp) := by
  induction l with
  | nil => simp at hmem
  | cons a rest ih =>
      intro sm acc pt
      rcases List.mem_cons.mp hmem with hfp | hfp
      · subst hfp
        have hnr : fp ∉ rest := (List.nodup_cons.mp hnd).1
        rw [processFiles, processFiles_lookup_not_mem _ _ _ _ hnr,
          stepFile_lookup_same]
      · have ha : fp ≠ a := by
          rintro rfl
          exact (List.nodup_cons.mp hnd).1 hfp
        rw [processFiles, ih (List.nodup_cons.mp hnd).2 hfp]
        refine congrArg some (entryOutcome_congr _ _ _ _ _ ?_ ?_ ?_)
        · rw [stepFile_is_processed_fail]
        · rw [stepFile_mark_processed_fail]
        · rw [mem_stepFile_processed]
          constructor
          · rintro (hx | ⟨hx, -, -⟩)
            · exact hx
            · exact absurd hx ha
          · exact fun hx => Or.inl hx

theorem processFiles_keys (env : Env) (cfg : ProcessorConfig)
    (l : List String) (hnd : l.Nodup) :
    ∀ sm acc pt, (∀ fp ∈ l, fp ∉ acc.keys) →
    (processFiles env cfg l sm acc pt).1.keys = acc.keys ++ l := by
  induction l with
  | nil => intro sm acc pt _; simp [processFiles]
  | cons a rest ih =>
      intro sm acc pt hsub
      have hk : (stepFile env cfg sm acc a).1.keys = acc.keys ++ [a] :=
        stepFile_keys _ _ _ _ _ (hsub a (by simp))
      rw [processFiles, ih (List.nodup_cons.mp hnd).2 _ _ _ ?_, hk]
      · simp
      · intro fp hfp
        rw [hk]
        simp only [List.mem_append, List.mem_singleton]
        rintro (hc | hc)
        · exact hsub fp (List.mem_cons_of_mem _ hfp) hc
        · exact (List.nodup_cons.mp hnd).1 (hc ▸ hfp)

end ProcessingEngine

/-! ### Lemmas about the per-file metric loop -/

namespace PsychoacousticProcessor

theorem processMetrics_errors (env : Env) (audio : BinauralSignal) (par : Bool)
    (l : List (String × MetricConfig)) : ∀ acc,
    (processMetrics env audio par l acc).errors = acc.errors := by
  induction l with
  | nil => intro acc; rfl
  | cons m rest ih =>
      intro acc
      by_cases hen : m.2.enabled
      · cases hr : runMetric env audio par m with
        | ok mcr => simp [processMetrics, hen, hr, ih,
            FileAnalysisResults.add_metric_result]
        | error e => simp [processMetrics, hen, hr]
      · simp [processMetrics, hen, ih]

theorem processMetrics_file_path (env : Env) (audio : BinauralSignal)
    (par : Bool) (l : List (String × MetricConfig)) : ∀ acc,
    (processMetrics env audio par l acc).file_path = acc.file_path := by
  induction l with
  | nil => intro acc; rfl
  | cons m rest ih =>
      intro acc
      by_cases hen : m.2.enabled
      · cases hr : runMetric env audio par m with
        | ok mcr => simp [processMetrics, hen, hr, ih,
            FileAnalysisResults.add_metric_result]
        | error e => simp [processMetrics, hen, hr]
      · simp [processMetrics, hen, ih]

theorem processMetrics_append_ok (env : Env) (audio : BinauralSignal)
    (par : Bool) (l1 l2 : List (String × MetricConfig))
    (h : ∀ m ∈ l1, m.2.enabled = true →
      ∃ mcr, runMetric env audio par m = Except.ok mcr) : ∀ acc,
    processMetrics env audio par (l1 ++ l2) acc =
      processMetrics env audio par l2 (processMetrics env audio par l1 acc) := by
  induction l1 with
  | nil => intro acc; rfl
  | cons m rest ih =>
      intro acc
      by_cases hen : m.2.enabled
      · obtain ⟨mcr, hmcr⟩ := h m (by simp) hen
        simp only [List.cons_append, processMetrics, hen, if_pos, hmcr]
        exact ih (fun m' hm' => h m' (List.mem_cons_of_mem _ hm')) _
      · simp only [List.cons_append, processMetrics, hen, if_neg,
          Bool.false_eq_true, not_false_iff]
        exact ih (fun m' hm' => h m' (List.mem_cons_of_mem _ hm')) _

theorem processMetrics_abort (env : Env) (audio : BinauralSignal) (par : Bool)
    (m : String × MetricConfig) (post : List (String × MetricConfig))
    (acc : FileAnalysisResults) (hen : m.2.enabled = true) (e : String)
    (hf : runMetric env audio par m = Except.error e) :
    processMetrics env audio par (m :: post) acc = acc := by
  simp [processMetrics, hen, hf]

theorem mem_processMetrics (env : Env) (audio : BinauralSignal) (par : Bool)
    (l : List (String × MetricConfig)) (p : String × MultiChannelResult) :
    ∀ acc, p ∈ (processMetrics env audio par l acc).metric_results →
      p ∈ acc.metric_results ∨
        ∃ m mcr, m ∈ l ∧ runMetric env audio par m = Except.ok mcr ∧
          p = (m.1, mcr) := by
  induction l with
  | nil => intro acc hp; exact Or.inl hp
  | cons m rest ih =>
      intro acc hp
      by_cases hen : m.2.enabled
      · cases hr : runMetric env audio par m with
        | ok mcr =>
            rw [processMetrics, if_pos hen, hr] at hp
            rcases ih _ hp with hp' | ⟨m', mcr', hm', hr', hpe⟩
            · simp only [FileAnalysisResults.add_metric_result,
                List.mem_append, List.mem_singleton] at hp'
              rcases hp' with hp' | hp'
              · exact Or.inl hp'
              · exact Or.inr ⟨m, mcr, by simp, hr, hp'⟩
            · exact Or.inr ⟨m', mcr', List.mem_cons_of_mem _ hm', hr', hpe⟩
        | error e =>
            rw [processMetrics, if_pos hen, hr] at hp
            exact Or.inl hp
      · rw [processMetrics, if_neg hen] at hp
        rcases ih _ hp with hp' | ⟨m', mcr', hm', hr', hpe⟩
        · exact Or.inl hp'
        · exact Or.inr ⟨m', mcr', List.mem_cons_of_mem _ hm', hr', hpe⟩

theorem processMetrics_names (env : Env) (audio : BinauralSignal) (par : Bool)
    (l : List (String × MetricConfig))
    (h : ∀ m ∈ l, m.2.enabled = true →
      ∃ mcr, runMetric env audio par m = Except.ok mcr) : ∀ acc,
    (processMetrics env audio par l acc).metric_results.map Prod.fst =
      acc.metric_results.map Prod.fst ++
        (l.filter (fun m => m.2.enabled)).map Prod.fst := by
  induction l with
  | nil => intro acc; simp [processMetrics]
  | cons m rest ih =>
      intro acc
      by_cases hen : m.2.enabled
      · obtain ⟨mcr, hmcr⟩ := h m (by simp) hen
        rw [processMetrics, if_pos hen, hmcr,
          ih (fun m' hm' => h m' (List.mem_cons_of_mem _ hm')) _]
        simp [FileAnalysisResults.add_metric_result, hen]
      · rw [processMetrics, if_neg hen,
          ih (fun m' hm' => h m' (List.mem_cons_of_mem _ hm')) _]
        simp only [List.filter_cons]
        have : (fun m : String × MetricConfig => m.2.enabled) m = false := by
          simpa using hen
        simp [this]

/-! ### Lemmas about per-channel processing -/

theorem processChannel_ok (metric : Metric) (cd : Signal) (name : String)
    (r : CalcResult) (h : metric.calculate cd = Except.ok r) :
    processChannel metric cd name = Except.ok { r with channel := name } := by
  simp [processChannel, segment_signal, analyze_segment, List.mapM,
    List.mapM.loop, h, exceptOkBind]

theorem processChannel_error (metric : Metric) (cd : Signal) (name : String)
    (e : String) (h : metric.calculate cd = Except.error e) :
    processChannel metric cd name = Except.error e := by
  simp [processChannel, segment_signal, analyze_segment, List.mapM,
    List.mapM.loop, h, exceptErrorBind]

theorem rangeLabelShift (i n : Nat) :
    (List.range (n + 1)).map (fun j => "channel_" ++ toString (i + j + 1)) =
      ("channel_" ++ toString (i + 1)) ::
        (List.range n).map (fun j => "channel_" ++ toString (i + 1 + j + 1)) := by
  rw [List.range_succ_eq_map, List.map_cons, List.map_map]
  have h0 : i + 0 + 1 = i + 1 := by omega
  rw [h0]
  refine congrArg (List.cons _) ?_
  apply List.map_congr_left
  intro j _
  simp only [Function.comp_apply, Nat.succ_eq_add_one]
  have h1 : i + (j + 1) + 1 = i + 1 + j + 1 := by omega
  rw [h1]

theorem seqChannels_keys (metric : Metric) (audio_data : BinauralSignal)
    (n : Nat) : ∀ i acc mcr,
    seqChannels metric audio_data i n acc = Except.ok mcr →
    mcr.keys = acc.keys ++
      (List.range n).map (fun j => "channel_" ++ toString (i + j + 1)) := by
  induction n with
  | zero =>
      intro i acc mcr h
      simp only [seqChannels, Except.ok.injEq] at h
      simp [← h]
  | succ n ih =>
      intro i acc mcr h
      rw [seqChannels] at h
      cases hr : processChannel metric (audio_data.chan i)
          ("channel_" ++ toString (i + 1)) with
      | error e => rw [hr, exceptErrorBind] at h; exact absurd h (by simp)
      | ok r =>
          rw [hr, exceptOkBind] at h
          rw [ih _ _ _ h]
          have hkeys : (acc.add_channel_result
              ("channel_" ++ toString (i + 1)) r).keys =
              acc.keys ++ ["channel_" ++ toString (i + 1)] := by
            simp [MultiChannelResult.add_channel_result, MultiChannelResult.keys]
          rw [hkeys, rangeLabelShift, List.append_assoc, List.singleton_append]

theorem seqChannels_fail (metric : Metric) (audio_data : BinauralSignal)
    (i n : Nat) (acc : MultiChannelResult) (e : String)
    (h : metric.calculate (audio_data.chan i) = Except.error e) :
    seqChannels metric audio_data i (n + 1) acc = Except.error e := by
  rw [seqChannels, processChannel_error _ _ _ _ h, exceptErrorBind]

theorem computeChannels_keys (metric : Metric) (audio_data : BinauralSignal)
    (parallel : Bool) (mcr : MultiChannelResult)
    (h : computeChannels metric audio_data parallel = Except.ok mcr) :
    mcr.keys = expectedChannelKeys audio_data parallel := by
  by_cases hc : (parallel && audio_data.channels == 2) = true
  · rw [computeChannels, if_pos hc] at h
    cases hl : processChannel metric audio_data.left "left" with
    | error e => rw [hl, exceptErrorBind] at h; exact absurd h (by simp)
    | ok rl =>
        rw [hl, exceptOkBind] at h
        cases hr : processChannel metric audio_data.right "right" with
        | error e => rw [hr, exceptErrorBind] at h; exact absurd h (by simp)
        | ok rr =>
            rw [hr, exceptOkBind] at h
            simp only [Except.ok.injEq] at h
            rw [expectedChannelKeys, if_pos hc, ← h]
            simp [MultiChannelResult.add_channel_result, MultiChannelResult.keys]
  · rw [computeChannels, if_neg hc] at h
    rw [expectedChannelKeys, if_neg hc]
    have := seqChannels_keys metric audio_data audio_data.channels 0
      (MultiChannelResult.mk []) mcr h
    rw [this]
    simp [MultiChannelResult.keys]

theorem computeChannels_fail_chan0 (metric : Metric)
    (audio_data : BinauralSignal) (parallel : Bool) (e : String)
    (hch : 0 < audio_data.channels)
    (h : metric.calculate (audio_data.chan 0) = Except.error e) :
    computeChannels metric audio_data parallel = Except.error e := by
  by_cases hc : (parallel && audio_data.channels == 2) = true
  · rw [computeChannels, if_pos hc,
      processChannel_error _ _ _ _ (show metric.calculate audio_data.left =
        Except.error e from h), exceptErrorBind]
  · obtain ⟨k, hk⟩ : ∃ k, audio_data.channels = k + 1 :=
      ⟨audio_data.channels - 1, by omega⟩
    rw [computeChannels, if_neg hc, hk, seqChannels_fail _ _ _ _ _ _ h]

theorem runMetric_ok_elim (env : Env) (audio_data : BinauralSignal)
    (parallel : Bool) (m : String × MetricConfig) (mcr : MultiChannelResult)
    (h : runMetric env audio_data parallel m = Except.ok mcr) :
    ∃ metric, env.get_metric m.1 = Except.ok metric ∧
      computeChannels metric audio_data parallel = Except.ok mcr := by
  cases hg : env.get_metric m.1 with
  | error e =>
      rw [runMetric, hg, exceptErrorBind] at h
      exact absurd h (by simp)
  | ok metric =>
      cases hc : metric.configure m.2 with
      | error e =>
          rw [runMetric, hg, exceptOkBind, hc, exceptErrorBind] at h
          exact absurd h (by simp)
      | ok u =>
          refine ⟨metric, rfl, ?_⟩
          rw [runMetric, hg, exceptOkBind, hc, exceptOkBind] at h
          exact h

theorem runMetric_keys (env : Env) (audio_data : BinauralSignal)
    (parallel : Bool) (m : String × MetricConfig) (mcr : MultiChannelResult)
    (h : runMetric env audio_data parallel m = Except.ok mcr) :
    mcr.keys = expectedChannelKeys audio_data parallel := by
  obtain ⟨metric, -, hcc⟩ := runMetric_ok_elim _ _ _ _ _ h
  exact computeChannels_keys _ _ _ _ hcc

theorem runMetric_fail_chan0 (env : Env) (audio_data : BinauralSignal)
    (parallel : Bool) (name : String) (mcfg : MetricConfig) (metric : Metric)
    (e : String) (hget : env.get_metric name = Except.ok metric)
    (hconf : metric.configure mcfg = Except.ok ())
    (hch : 0 < audio_data.channels)
    (hcalc : metric.calculate (audio_data.chan 0) = Except.error e) :
    runMetric env audio_data parallel (name, mcfg) = Except.error e := by
  rw [runMetric, hget, exceptOkBind, hconf, exceptOkBind,
    computeChannels_fail_chan0 _ _ _ _ hch hcalc]

end PsychoacousticProcessor

/-! ### Lemmas about a single unit of work -/

namespace ProcessingEngine

theorem unitWork_load_error (env : Env) (cfg : ProcessorConfig) (fp e : String)
    (par : Bool) (h : env.from_wav fp = Except.error e) :
    unitWork env cfg fp par = errorOnlyResults fp e := by
  rw [unitWork, h]

theorem unitWork_load_ok (env : Env) (cfg : ProcessorConfig) (fp : String)
    (par : Bool) (a : BinauralSignal) (h : env.from_wav fp = Except.ok a) :
    unitWork env cfg fp par = PsychoacousticProcessor.process cfg env a par := by
  rw [unitWork, h]

/-- The per-file metric loop never appends to the error list: a file result
produced by `process` always has an empty error list. -/
theorem process_errors_empty (cfg : ProcessorConfig) (env : Env)
    (audio_data : BinauralSignal) (par : Bool) :
    (PsychoacousticProcessor.process cfg env audio_data par).errors = [] := by
  rw [PsychoacousticProcessor.process,
    PsychoacousticProcessor.processMetrics_errors]
  rfl

end ProcessingEngine

/-! ### Claim theorems -/

open ProcessingEngine PsychoacousticProcessor

/-- C1 (counterexample): in a concrete run, `d/b.wav` fails to load — its
entry in the directory results carries a load error — and yet the file IS
marked complete in the state store, contradicting the claim that a file
whose loading fails is not marked complete. -/
theorem claim_C1_counterexample :
    (ProcessingEngine.process_directory envX cfgX "d" smEmpty).1.lookup "d/b.wav"
      = some (errorOnlyResults "d/b.wav" "load failure: d/b.wav") ∧
    "d/b.wav" ∈
      (ProcessingEngine.process_directory envX cfgX "d" smEmpty).2.1.processed := by
  decide

/-- C1 (amended): after `process_directory`, a file is marked complete in
the state store iff it was already marked or it is an eligible file on which
neither `is_processed` nor `mark_processed` raised — independently of
whether the file's loading or processing succeeded, since the completion
handler marks every file whose dispatch returned, including error-only
results. -/
theorem claim_C1_marking_iff (env : Env) (cfg : ProcessorConfig)
    (dir : String) (sm : StateManager) (fp : String) :
    fp ∈ (ProcessingEngine.process_directory env cfg dir sm).2.1.processed ↔
      fp ∈ sm.processed ∨
        (fp ∈ ProcessingEngine.eligiblePaths env dir ∧
          fp ∉ sm.is_processed_fail ∧ fp ∉ sm.mark_processed_fail) := by
  rw [ProcessingEngine.process_directory]
  exact mem_processFiles_processed env cfg _ fp sm _ _

/-- C2 (counterexample): with `d/a.wav` already marked complete and
force-reprocess false, the run still adds an (empty) entry for `d/a.wav` to
the directory results, contradicting the claim that no entry is added. -/
theorem claim_C2_counterexample :
    cfgX.force_reprocess = false ∧
    "d/a.wav" ∈ smDoneA.processed ∧
    (ProcessingEngine.process_directory envX cfgX "d" smDoneA).1.lookup "d/a.wav"
      = some (emptyFileResults "d/a.wav") := by
  decide

/-- C2 (amended): a file already marked complete, with force-reprocess
false and a fault-free state store, is skipped: its entry in the returned
directory results is the EMPTY `FileAnalysisResults` (no metric results, no
errors) — an entry is added, not omitted — and the file remains marked
complete in the state store. -/
theorem claim_C2_skip_entry (env : Env) (cfg : ProcessorConfig) (dir : String)
    (sm : StateManager) (fp : String)
    (hnd : (ProcessingEngine.eligiblePaths env dir).Nodup)
    (hmem : fp ∈ ProcessingEngine.eligiblePaths env dir)
    (hdone : fp ∈ sm.processed)
    (h1 : fp ∉ sm.is_processed_fail) (h2 : fp ∉ sm.mark_processed_fail)
    (hforce : cfg.force_reprocess = false) :
    (ProcessingEngine.process_directory env cfg dir sm).1.lookup fp =
      some (emptyFileResults fp) ∧
    fp ∈ (ProcessingEngine.process_directory env cfg dir sm).2.1.processed := by
  constructor
  · rw [ProcessingEngine.process_directory,
      processFiles_lookup_mem env cfg _ fp hnd hmem]
    simp [entryOutcome, h1, h2, hdone, hforce]
  · rw [ProcessingEngine.process_directory]
    rw [mem_processFiles_processed]
    exact Or.inl hdone

/-- C2 (witness): the amended skip behavior at the concrete fixture run. -/
theorem claim_C2_witness :
    (ProcessingEngine.process_directory envX cfgX "d" smDoneA).1.lookup "d/a.wav"
      = some (emptyFileResults "d/a.wav") ∧
    "d/a.wav" ∈
      (ProcessingEngine.process_directory envX cfgX "d" smDoneA).2.1.processed :=
  claim_C2_skip_entry envX cfgX "d" smDoneA "d/a.wav" (by decide) (by decide)
    (by decide) (by decide) (by decide) (by decide)

/-- C8 (confirmed): the progress tracker is created with the eligible-file
count as its total and is advanced exactly once per enumerated file — in
the `finally` of the completion handler, on the skip, success and failure
paths alike — so after the run the count equals the total equals the number
of eligible files. -/
theorem claim_C8_progress_ticks (env : Env) (cfg : ProcessorConfig)
    (dir : String) (sm : StateManager) :
    (ProcessingEngine.process_directory env cfg dir sm).2.2.total =
      (ProcessingEngine.eligiblePaths env dir).length ∧
    (ProcessingEngine.process_directory env cfg dir sm).2.2.count =
      (ProcessingEngine.eligiblePaths env dir).length := by
  rw [ProcessingEngine.process_directory, processFiles_pt]
  exact ⟨rfl, by simp⟩

/-- C3 (counterexample): in a concrete run, resolving the second configured
metric raises (unknown metric), yet the returned file result's error list is
empty — the triggering error is not appended to the file's error list,
contradicting that part of the claim (the first metric's result is kept and
nothing after the failure is processed). -/
theorem claim_C3_counterexample :
    runMetric envX audioA false ("zz", {}) =
      Except.error "unknown metric: zz" ∧
    (process cfgM1Unknown envX audioA false).metric_results.map Prod.fst
      = ["m1"] ∧
    (process cfgM1Unknown envX audioA false).errors = [] := by
  decide

/-- C3 (amended): if resolving, configuring or computing a metric raises
after a prefix of succeeding metrics, no metric after it is processed and
the results recorded for the prefix are preserved — the output equals what
processing the prefix alone yields — and `process` returns without raising;
however the triggering error is NOT appended to the file's error list,
which stays empty (the handler only logs it). -/
theorem claim_C3_abort_semantics (env : Env) (cfg : ProcessorConfig)
    (audio_data : BinauralSignal) (par : Bool)
    (pre post : List (String × MetricConfig)) (cur : String × MetricConfig)
    (e : String) (hm : cfg.metrics = pre ++ cur :: post)
    (hpre : ∀ m ∈ pre, m.2.enabled = true →
      ∃ mcr, runMetric env audio_data par m = Except.ok mcr)
    (hen : cur.2.enabled = true)
    (hf : runMetric env audio_data par cur = Except.error e) :
    process cfg env audio_data par =
      process { cfg with metrics := pre } env audio_data par ∧
    (process cfg env audio_data par).errors = [] := by
  have h1 : process cfg env audio_data par =
      processMetrics env audio_data par pre
        (emptyFileResults audio_data.file_path) := by
    rw [process, hm,
      processMetrics_append_ok env audio_data par pre (cur :: post) hpre,
      processMetrics_abort env audio_data par cur post _ hen e hf]
  exact ⟨by rw [h1]; rfl, by rw [h1, processMetrics_errors]; rfl⟩

/-- C3 (witness): the amended abort semantics at the concrete fixture. -/
theorem claim_C3_witness :
    process cfgM1Unknown envX audioA false =
      process { cfgM1Unknown with metrics := [("m1", {})] } envX audioA false ∧
    (process cfgM1Unknown envX audioA false).errors = [] :=
  claim_C3_abort_semantics envX cfgM1Unknown audioA false [("m1", {})] []
    ("zz", {}) "unknown metric: zz" rfl
    (by
      intro m hm _
      have hm' : m = ("m1", {}) := by simpa using hm
      subst hm'
      exact ⟨{ channel_results :=
        [("channel_1", { value := 105, channel := "channel_1" }),
         ("channel_2", { value := 107, channel := "channel_2" })] }, by decide⟩)
    rfl (by decide)

/-- C4 (counterexample): with the state store raising on `is_processed` for
`d/a.wav`, `process_directory` does not propagate the error: it completes,
records an error-only entry for `d/a.wav` and still processes `d/b.wav`,
contradicting the claim that state-store errors reach the caller. -/
theorem claim_C4_counterexample :
    (ProcessingEngine.process_directory envX cfgX "d" smReadFailA).1.lookup
      "d/a.wav" =
      some (errorOnlyResults "d/a.wav" "state store read error: d/a.wav") ∧
    (ProcessingEngine.process_directory envX cfgX "d" smReadFailA).1.keys =
      ["d/a.wav", "d/b.wav"] := by
  decide

/-- C4 (amended): a state-store error (from `is_processed`, surfacing via
`future.result()`, or from `mark_processed`) is caught by the completion
handler and absorbed into the result tree as an error-only entry for the
affected file; `process_directory` returns normally instead of propagating
the error. -/
theorem claim_C4_store_error_absorbed (env : Env) (cfg : ProcessorConfig)
    (dir : String) (sm : StateManager) (fp : String)
    (hnd : (ProcessingEngine.eligiblePaths env dir).Nodup)
    (hmem : fp ∈ ProcessingEngine.eligiblePaths env dir) :
    (fp ∈ sm.is_processed_fail →
      (ProcessingEngine.process_directory env cfg dir sm).1.lookup fp =
        some (errorOnlyResults fp ("state store read error: " ++ fp))) ∧
    (fp ∉ sm.is_processed_fail → fp ∈ sm.mark_processed_fail →
      (ProcessingEngine.process_directory env cfg dir sm).1.lookup fp =
        some (errorOnlyResults fp ("state store write error: " ++ fp))) := by
  constructor
  · intro h1
    rw [ProcessingEngine.process_directory,
      processFiles_lookup_mem env cfg _ fp hnd hmem]
    simp [entryOutcome, h1]
  · intro h1 h2
    rw [ProcessingEngine.process_directory,
      processFiles_lookup_mem env cfg _ fp hnd hmem]
    simp [entryOutcome, h1, h2]

/-- C4 (witness): the amended absorption behavior at the concrete fixture. -/
theorem claim_C4_witness :
    ("d/a.wav" ∈ smReadFailA.is_processed_fail →
      (ProcessingEngine.process_directory envX cfgX "d" smReadFailA).1.lookup
        "d/a.wav" =
        some (errorOnlyResults "d/a.wav"
          ("state store read error: " ++ "d/a.wav"))) ∧
    ("d/a.wav" ∉ smReadFailA.is_processed_fail →
      "d/a.wav" ∈ smReadFailA.mark_processed_fail →
      (ProcessingEngine.process_directory envX cfgX "d" smReadFailA).1.lookup
        "d/a.wav" =
        some (errorOnlyResults "d/a.wav"
          ("state store write error: " ++ "d/a.wav"))) :=
  claim_C4_store_error_absorbed envX cfgX "d" smReadFailA "d/a.wav"
    (by decide) (by decide)

/-- C5 (confirmed): over a fresh, fault-free state store, when exactly one
eligible file's load fails and every other file's unit of work fully
succeeds, the directory results hold exactly one entry per eligible file;
the failed file's entry carries only the load error and every other entry
is a full success; the call returns normally (it is a total function). -/
theorem claim_C5_partial_failure_isolation (env : Env) (cfg : ProcessorConfig)
    (dir : String) (sm : StateManager) (f0 e : String)
    (hnd : (ProcessingEngine.eligiblePaths env dir).Nodup)
    (hmem : f0 ∈ ProcessingEngine.eligiblePaths env dir)
    (hclean : ∀ fp ∈ ProcessingEngine.eligiblePaths env dir,
      fp ∉ sm.processed ∧ fp ∉ sm.is_processed_fail ∧
        fp ∉ sm.mark_processed_fail)
    (hload : env.from_wav f0 = Except.error e)
    (hok : ∀ fp ∈ ProcessingEngine.eligiblePaths env dir, fp ≠ f0 →
      (unitWork env cfg fp false).errors = [] ∧
      (unitWork env cfg fp false).metric_results ≠ []) :
    (ProcessingEngine.process_directory env cfg dir sm).1.keys =
      ProcessingEngine.eligiblePaths env dir ∧
    (ProcessingEngine.process_directory env cfg dir sm).1.lookup f0 =
      some (errorOnlyResults f0 e) ∧
    ∀ fp ∈ ProcessingEngine.eligiblePaths env dir, fp ≠ f0 → ∃ r,
      (ProcessingEngine.process_directory env cfg dir sm).1.lookup fp = some r ∧
      r.errors = [] ∧ r.metric_results ≠ [] := by
  refine ⟨?_, ?_, ?_⟩
  · rw [ProcessingEngine.process_directory,
      processFiles_keys env cfg _ hnd _ _ _
        (by intro fp _; simp [DirectoryAnalysisResults.keys])]
    simp [DirectoryAnalysisResults.keys]
  · obtain ⟨hp, h1, h2⟩ := hclean f0 hmem
    rw [ProcessingEngine.process_directory,
      processFiles_lookup_mem env cfg _ f0 hnd hmem, entryOutcome, if_neg h1,
      if_neg h2, if_neg (by exact fun hc => hp hc.1),
      unitWork_load_error env cfg f0 e false hload]
  · intro fp hfp hne
    obtain ⟨hp, h1, h2⟩ := hclean fp hfp
    refine ⟨unitWork env cfg fp false, ?_, (hok fp hfp hne).1,
      (hok fp hfp hne).2⟩
    rw [ProcessingEngine.process_directory,
      processFiles_lookup_mem env cfg _ fp hnd hfp, entryOutcome, if_neg h1,
      if_neg h2, if_neg (by exact fun hc => hp hc.1)]

/-- C5 (witness): the batch-level isolation at the concrete fixture run
(two eligible files: `d/a.wav` succeeds, `d/b.wav` fails to load). -/
theorem claim_C5_witness :
    (ProcessingEngine.process_directory envX cfgX "d" smEmpty).1.keys =
      ProcessingEngine.eligiblePaths envX "d" ∧
    (ProcessingEngine.process_directory envX cfgX "d" smEmpty).1.lookup
      "d/b.wav" = some (errorOnlyResults "d/b.wav" "load failure: d/b.wav") ∧
    ∀ fp ∈ ProcessingEngine.eligiblePaths envX "d", fp ≠ "d/b.wav" → ∃ r,
      (ProcessingEngine.process_directory envX cfgX "d" smEmpty).1.lookup fp =
        some r ∧ r.errors = [] ∧ r.metric_results ≠ [] :=
  claim_C5_partial_failure_isolation envX cfgX "d" smEmpty "d/b.wav"
    "load failure: d/b.wav" (by decide) (by decide) (by decide) (by decide)
    (by decide)

/-- C6 (counterexample): a metric whose calculation raises on the first
channel of a two-channel signal on the sequential path: nothing is recorded
at the channel level and the remaining metric (`m1`) is not processed — the
whole file result is empty — contradicting the claim that the sequential
path isolates the failure at channel level. -/
theorem claim_C6_counterexample :
    badCalcMetric.calculate (audioA.chan 0) = Except.error "calc boom" ∧
    (process cfgMxFirst envX audioA false).metric_results = [] ∧
    (process cfgMxFirst envX audioA false).errors = [] := by
  decide

/-- C6 (amended): on the sequential path exactly as on the parallel path, a
channel-level calculation error is not recorded in the metric's
`MultiChannelResult`: it propagates out of `_process_channel` to the
catch-all handler of `process`, aborting that metric and all remaining
metrics of the file (here stated for a failing first configured metric:
the returned file result is empty). -/
theorem claim_C6_channel_error_aborts_file (env : Env) (cfg : ProcessorConfig)
    (audio_data : BinauralSignal) (par : Bool) (name : String)
    (mcfg : MetricConfig) (metric : Metric)
    (post : List (String × MetricConfig)) (e : String)
    (hm : cfg.metrics = (name, mcfg) :: post)
    (hget : env.get_metric name = Except.ok metric)
    (hconf : metric.configure mcfg = Except.ok ())
    (hen : mcfg.enabled = true)
    (hch : 0 < audio_data.channels)
    (hcalc : metric.calculate (audio_data.chan 0) = Except.error e) :
    process cfg env audio_data par = emptyFileResults audio_data.file_path := by
  rw [process, hm,
    processMetrics_abort env audio_data par (name, mcfg) post _ hen e
      (runMetric_fail_chan0 env audio_data par name mcfg metric e hget hconf
        hch hcalc)]

/-- C6 (witness): the amended abort behavior at the concrete fixture. -/
theorem claim_C6_witness :
    process cfgMxFirst envX audioA false = emptyFileResults "d/a.wav" :=
  claim_C6_channel_error_aborts_file envX cfgMxFirst audioA false "mx" {}
    badCalcMetric [("m1", {})] "calc boom" rfl rfl rfl rfl (by decide) rfl

/-! ### Shape of the entries recorded by the collection loop -/

namespace ProcessingEngine

theorem unitWork_cases (env : Env) (cfg : ProcessorConfig) (fp : String)
    (par : Bool) :
    (unitWork env cfg fp par).metric_results = [] ∨
    ∃ a, unitWork env cfg fp par = PsychoacousticProcessor.process cfg env a par := by
  cases hw : env.from_wav fp with
  | error e => left; rw [unitWork_load_error env cfg fp e par hw]; rfl
  | ok a => right; exact ⟨a, unitWork_load_ok env cfg fp par a hw⟩

theorem mem_stepFile_file_results (env : Env) (cfg : ProcessorConfig)
    (sm : StateManager) (acc : DirectoryAnalysisResults) (fp : String)
    (p : String × FileAnalysisResults)
    (hp : p ∈ (stepFile env cfg sm acc fp).1.file_results) :
    p ∈ acc.file_results ∨ p.2.metric_results = [] ∨
      ∃ a, p.2 = PsychoacousticProcessor.process cfg env a false := by
  have hadd : ∀ (d : DirectoryAnalysisResults) (r : FileAnalysisResults),
      (d.add_file_result fp r).file_results = upsertEntry d.file_results fp r :=
    fun _ _ => rfl
  have hBase : ∀ (r : FileAnalysisResults),
      (r.metric_results = [] ∨
        ∃ a, r = PsychoacousticProcessor.process cfg env a false) →
      p ∈ (acc.add_file_result fp r).file_results ∨
        p ∈ ((acc.add_file_result fp r).add_file_result fp
          (errorOnlyResults fp ("state store write error: " ++ fp))).file_results →
      p ∈ acc.file_results ∨ p.2.metric_results = [] ∨
        ∃ a, p.2 = PsychoacousticProcessor.process cfg env a false := by
    intro r hr hmem
    rcases hmem with hmem | hmem
    · rw [hadd] at hmem
      rcases mem_upsertEntry _ _ _ _ hmem with he | he
      · rcases hr with hr | ⟨a, ha⟩
        · exact Or.inr (Or.inl (by rw [he]; exact hr))
        · exact Or.inr (Or.inr ⟨a, by rw [he]; exact ha⟩)
      · exact Or.inl he
    · rw [hadd] at hmem
      rcases mem_upsertEntry _ _ _ _ hmem with he | he
      · exact Or.inr (Or.inl (by rw [he]; rfl))
      · rw [hadd] at he
        rcases mem_upsertEntry _ _ _ _ he with he' | he'
        · rcases hr with hr | ⟨a, ha⟩
          · exact Or.inr (Or.inl (by rw [he']; exact hr))
          · exact Or.inr (Or.inr ⟨a, by rw [he']; exact ha⟩)
        · exact Or.inl he'
  by_cases h1 : fp ∈ sm.is_processed_fail
  · rw [stepFile, processFile_eq, if_pos h1] at hp
    rw [hadd] at hp
    rcases mem_upsertEntry _ _ _ _ hp with he | he
    · exact Or.inr (Or.inl (by rw [he]; rfl))
    · exact Or.inl he
  · by_cases h3 : fp ∈ sm.processed ∧ cfg.force_reprocess = false
    · by_cases h2 : fp ∈ sm.mark_processed_fail
      · rw [stepFile, processFile_eq, if_neg h1, if_pos h3] at hp
        simp only [StateManager.mark_processed, if_pos h2] at hp
        exact hBase (emptyFileResults fp) (Or.inl rfl) (Or.inr hp)
      · rw [stepFile, processFile_eq, if_neg h1, if_pos h3] at hp
        simp only [StateManager.mark_processed, if_neg h2] at hp
        exact hBase (emptyFileResults fp) (Or.inl rfl) (Or.inl hp)
    · by_cases h2 : fp ∈ sm.mark_processed_fail
      · rw [stepFile, processFile_eq, if_neg h1, if_neg h3] at hp
        simp only [StateManager.mark_processed, if_pos h2] at hp
        exact hBase (unitWork env cfg fp false) (unitWork_cases env cfg fp false)
          (Or.inr hp)
      · rw [stepFile, processFile_eq, if_neg h1, if_neg h3] at hp
        simp only [StateManager.mark_processed, if_neg h2] at hp
        exact hBase (unitWork env cfg fp false) (unitWork_cases env cfg fp false)
          (Or.inl hp)

theorem mem_processFiles_file_results (env : Env) (cfg : ProcessorConfig)
    (l : List String) (p : String × FileAnalysisResults) :
    ∀ sm acc pt, p ∈ (processFiles env cfg l sm acc pt).1.file_results →
      p ∈ acc.file_results ∨ p.2.metric_results = [] ∨
        ∃ a, p.2 = PsychoacousticProcessor.process cfg env a false := by
  induction l with
  | nil => intro sm acc pt hp; exact Or.inl hp
  | cons a rest ih =>
      intro sm acc pt hp
      rw [processFiles] at hp
      rcases ih _ _ _ hp with hp' | h | h
      · exact mem_stepFile_file_results env cfg sm acc a p hp'
      · exact Or.inr (Or.inl h)
      · exact Or.inr (Or.inr h)

end ProcessingEngine

/-- C7 (confirmed): when every enabled metric's resolution, configuration
and computation succeed, `process` records one `MultiChannelResult` per
enabled metric in configuration order, and each one's keys are exactly
`["left", "right"]` when `parallel` is requested and the signal has exactly
two channels, and exactly `channel_1 .. channel_k` (in index order) for a
`k`-channel signal otherwise. -/
theorem claim_C7_channel_labels (env : Env) (cfg : ProcessorConfig)
    (audio_data : BinauralSignal) (par : Bool)
    (hok : ∀ m ∈ cfg.metrics, m.2.enabled = true →
      ∃ mcr, runMetric env audio_data par m = Except.ok mcr) :
    ((process cfg env audio_data par).metric_results.map Prod.fst =
      (cfg.metrics.filter (fun m => m.2.enabled)).map Prod.fst) ∧
    ∀ q ∈ (process cfg env audio_data par).metric_results,
      q.2.keys = expectedChannelKeys audio_data par := by
  constructor
  · rw [process, processMetrics_names env audio_data par cfg.metrics hok]
    simp [emptyFileResults]
  · intro q hq
    rw [process] at hq
    rcases mem_processMetrics env audio_data par cfg.metrics q _ hq with
      h | ⟨m, mcr, hm, hr, hqe⟩
    · simp [emptyFileResults] at h
    · rw [hqe]
      exact runMetric_keys env audio_data par m mcr hr

/-- C7 (witness): the parallel two-channel labels at the concrete fixture. -/
theorem claim_C7_witness :
    ((process cfgX envX audioA true).metric_results.map Prod.fst =
      (cfgX.metrics.filter (fun m => m.2.enabled)).map Prod.fst) ∧
    ∀ q ∈ (process cfgX envX audioA true).metric_results,
      q.2.keys = expectedChannelKeys audioA true :=
  claim_C7_channel_labels envX cfgX audioA true
    (by
      intro m hm _
      have hm' : m = ("m1", {}) := by simpa [cfgX] using hm
      subst hm'
      exact ⟨{ channel_results :=
        [("left", { value := 105, channel := "left" }),
         ("right", { value := 107, channel := "right" })] }, by decide⟩)

/-- C9 (confirmed): `process_directory` hard-codes `parallel_channels` to
`False` when dispatching `_process_file`, so every `MultiChannelResult` in
every file entry of a directory run carries sequential index-order labels
`channel_1 .. channel_k` — the two-channel `left`/`right` parallel path is
unreachable from a batch run. -/
theorem claim_C9_sequential_labels_only (env : Env) (cfg : ProcessorConfig)
    (dir : String) (sm : StateManager) (p : String × FileAnalysisResults)
    (q : String × MultiChannelResult)
    (hp : p ∈ (ProcessingEngine.process_directory env cfg dir sm).1.file_results)
    (hq : q ∈ p.2.metric_results) :
    ∃ k, q.2.keys =
      (List.range k).map (fun i => "channel_" ++ toString (i + 1)) := by
  rw [ProcessingEngine.process_directory] at hp
  rcases mem_processFiles_file_results env cfg _ p sm _ _ hp with h | h | ⟨a, ha⟩
  · simp at h
  · rw [h] at hq
    simp at hq
  · rw [ha, process] at hq
    rcases mem_processMetrics env a false cfg.metrics q _ hq with
      h' | ⟨m, mcr, hm, hr, hqe⟩
    · simp [emptyFileResults] at h'
    · refine ⟨a.channels, ?_⟩
      rw [hqe]
      rw [runMetric_keys env a false m mcr hr, expectedChannelKeys]
      simp

/-- C9 (witness): the sequential labels of the successful file in the
concrete fixture run. -/
theorem claim_C9_witness :
    ∃ k, ({ channel_results :=
      [("channel_1", { value := 105, channel := "channel_1" }),
       ("channel_2", { value := 107, channel := "channel_2" })] } :
        MultiChannelResult).keys =
      (List.range k).map (fun i => "channel_" ++ toString (i + 1)) :=
  claim_C9_sequential_labels_only envX cfgX "d" smEmpty
    ("d/a.wav", { file_path := "d/a.wav", metric_results :=
      [("m1", { channel_results :=
        [("channel_1", { value := 105, channel := "channel_1" }),
         ("channel_2", { value := 107, channel := "channel_2" })] })] })
    ("m1", { channel_results :=
      [("channel_1", { value := 105, channel := "channel_1" }),
       ("channel_2", { value := 107, channel := "channel_2" })] })
    (by decide) (by decide)

/-- C10 (confirmed): `_process_channel` segments the channel into exactly
one segment holding the whole signal, invokes the metric's computation on
it, and returns the first (only) segment's result tagged with the channel
name. -/
theorem claim_C10_first_segment_result (metric : Metric) (cd : Signal)
    (name : String) (r : CalcResult)
    (h : metric.calculate cd = Except.ok r) :
    segment_signal cd = [cd] ∧
    processChannel metric cd name = Except.ok { r with channel := name } :=
  ⟨rfl, processChannel_ok metric cd name r h⟩

/-- C10 (witness): the single-segment first-result behavior at a concrete
metric and channel. -/
theorem claim_C10_witness :
    segment_signal 5 = [5] ∧
    processChannel okMetricA 5 "channel_1" =
      Except.ok { value := 105, channel := "channel_1" } :=
  claim_C10_first_segment_result okMetricA 5 "channel_1"
    { value := 105, channel := "" } (by decide)
